import Mathlib

/-!
Verification of the cluster-manager decommissioning orchestrator.

The development shallowly embeds the two source classes:

* `ClusterCleanup` (the compiled pipeline: `deleteClusterAndResources`,
  `deleteHelper`, the per-resource gateway methods, and the CloudFormation
  bounded poller), and
* `ECSClusterManager` (the TypeScript entry point in `src/index.ts`).

Remote behaviour is modelled by an environment `AwsEnv` that fixes the
response of every remote call; each source method becomes a pair of Lean
functions giving the list of performed actions (remote calls, emitted
lifecycle events, console logs) and its returned value.  `Promise.all`
fan-outs are modelled by `collectResults`, which yields the first rejection
in list order, matching the single rejection that reaches each method's
catch block.
-/

set_option linter.unusedVariables false

namespace ClusterManager

/-- An ECS cluster record as consumed by the code: name and status. -/
structure Cluster where
  clusterName : String
  status : String
deriving DecidableEq, Repr

/-- A CloudFormation stack record; only `StackId` is consumed. -/
structure Stack where
  StackId : String
deriving DecidableEq, Repr

/-- An ECS service record; only `serviceName` is consumed. -/
structure Service where
  serviceName : String
deriving DecidableEq, Repr

/-- An ECS task record (payload of `stopTask` responses). -/
structure Task where
  taskArn : String
deriving DecidableEq, Repr

/-- A container-instance record (payload of deregistration responses). -/
structure ContainerInstance where
  containerInstanceArn : String
deriving DecidableEq, Repr

/-- A CloudFormation stack event: logical resource id plus status. -/
structure StackEvent where
  LogicalResourceId : String
  ResourceStatus : String
deriving DecidableEq, Repr

/-- The lifecycle-event taxonomy of `ClusterCleanupEvents`, with the payload
each emission site passes. -/
inductive Ev where
  | start (cluster : String)
  | stackFound (stack : Stack)
  | servicesFound (serviceArns : List String)
  | servicesScaledDown (services : List Service)
  | tasksFound (taskArns : List String)
  | tasksStopped (tasks : List Task)
  | instancesFound (instanceArns : List String)
  | instancesDeregistered (instances : List ContainerInstance)
  | servicesDeleted (services : List Service)
  | stackDeletionStarted (stackId : String)
  | stackDeletionDone (stackId : String)
  | resourceDeleted (event : StackEvent)
  | clusterDeleted (cluster : Option Cluster)
  | done (cluster : String)
  | doneWithError (message : String)
  | error (message : String)
deriving DecidableEq, Repr

/-- One remote API request, carrying exactly the parameters the source
passes to the AWS SDK. -/
inductive RemoteCall where
  | describeClusters (clusters : List String)
  | listServices (cluster : String) (launchType : String)
  | updateService (cluster : String) (service : String) (desiredCount : Nat)
  | listTasks (cluster : String)
  | stopTask (cluster : String) (task : String) (reason : String)
  | listContainerInstances (cluster : String)
  | deregisterContainerInstance (cluster : String) (containerInstance : String) (force : Bool)
  | deleteService (cluster : String) (service : String)
  | describeStacks (stackName : String)
  | deleteStack (stackName : String)
  | describeStackEvents (stackName : String)
  | waitForStackDeleteComplete (stackName : String)
  | deleteCluster (cluster : String)
deriving DecidableEq, Repr

/-- One observable step of a run: a remote call being issued, a lifecycle
event being emitted, a console log line, or control returning the event
source to the caller of the entry point. -/
inductive Action where
  | call (c : RemoteCall)
  | emit (e : Ev)
  | log
  | returnEventSource
deriving DecidableEq, Repr

/-- The remote world: the response every remote call would get in this run.
Per-resource calls (scale, stop, deregister, delete service) are keyed by
the resource identifier they are issued for.  The polling interval's tick
stream is split at the settlement of the waitFor race:
stackEventsResponses are the describeStackEvents responses observed by the
ticks that fire before the race settles, and lateStackEventsResponses are
the responses observed by the ticks that keep firing after a waitFor
rejection — the one settlement that does not clear the interval — until
the ten-minute timer eventually stops it. -/
structure AwsEnv where
  describeClustersRes : Except String (List Cluster)
  describeStacksRes : Except String (List Stack)
  listServicesRes : String → Except String (List String)
  updateServiceRes : String → Except String Service
  listTasksRes : Except String (List String)
  stopTaskRes : String → Except String Task
  listContainerInstancesRes : Except String (List String)
  deregisterRes : String → Except String ContainerInstance
  deleteServiceRes : String → Except String Service
  deleteStackRes : Except String Unit
  stackEventsResponses : List (Except String (List StackEvent))
  lateStackEventsResponses : List (Except String (List StackEvent))
  waitForResolveMs : Nat
  waitForResult : Except String (List Stack)
  deleteClusterRes : Except String Cluster

/-- `Promise.all` over an ordered list of settled outcomes: succeeds with
all values, or fails with the first rejection in list order (the single
rejection that reaches the catch block). -/
def collectResults {α : Type} : List (Except String α) → Except String (List α)
  | [] => Except.ok []
  | Except.error e :: _ => Except.error e
  | Except.ok a :: rest =>
    match collectResults rest with
    | Except.ok as => Except.ok (a :: as)
    | Except.error e => Except.error e

/-- The lifecycle events of an action list, in emission order. -/
def eventsOf (l : List Action) : List Ev :=
  l.filterMap fun a =>
    match a with
    | Action.emit e => some e
    | _ => none

/-- The remote calls of an action list, in issue order. -/
def callsOf (l : List Action) : List RemoteCall :=
  l.filterMap fun a =>
    match a with
    | Action.call c => some c
    | _ => none

namespace ClusterCleanup

/-- Actions of `describeCluster`: the describeClusters request, plus a
non-terminal error event when the call rejects. -/
def describeClusterActions (env : AwsEnv) (cluster : String) : List Action :=
  Action.call (RemoteCall.describeClusters [cluster]) ::
    match env.describeClustersRes with
    | Except.ok _ => []
    | Except.error e => [Action.emit (Ev.error e)]

/-- Value of `describeCluster`: the clusters of the response, or the empty
list when the call rejects. -/
def describeClusterResult (env : AwsEnv) (cluster : String) : List Cluster :=
  match env.describeClustersRes with
  | Except.ok cs => cs
  | Except.error _ => []

/-- Value of `doesClusterExist`: some cluster of the response is not
INACTIVE and carries the requested name.  (The method's own catch block is
unreachable: `describeCluster` never throws.) -/
def doesClusterExistResult (env : AwsEnv) (cluster : String) : Bool :=
  (((describeClusterResult env cluster).filter fun c => c.status != "INACTIVE").filter
    fun c => c.clusterName == cluster).length != 0

/-- Actions of `describeStack`: one describeStacks request addressed to the
conventional stack name, plus an error event when it rejects. -/
def describeStackActions (env : AwsEnv) (cluster : String) : List Action :=
  Action.call (RemoteCall.describeStacks ("EC2ContainerService-" ++ cluster)) ::
    match env.describeStacksRes with
    | Except.ok _ => []
    | Except.error e => [Action.emit (Ev.error e)]

/-- Value of `describeStack`: `Stacks[0]` of the response (none when the
response has no stacks), or null when the call rejects. -/
def describeStackResult (env : AwsEnv) (cluster : String) : Option Stack :=
  match env.describeStacksRes with
  | Except.ok sts => sts.head?
  | Except.error _ => none

/-- Actions of `getAllServicesFor`: one listServices request per configured
launch type, plus an error event when any of them rejects. -/
def getAllServicesActions (env : AwsEnv) (launchTypes : List String) (cluster : String) :
    List Action :=
  (launchTypes.map fun l => Action.call (RemoteCall.listServices cluster l)) ++
    match collectResults (launchTypes.map env.listServicesRes) with
    | Except.ok _ => []
    | Except.error e => [Action.emit (Ev.error e)]

/-- Value of `getAllServicesFor`: the per-launch-type serviceArns lists
concatenated in launch-type order, or the empty list on any rejection. -/
def getAllServicesResult (env : AwsEnv) (launchTypes : List String) (cluster : String) :
    List String :=
  match collectResults (launchTypes.map env.listServicesRes) with
  | Except.ok rs => rs.flatten
  | Except.error _ => []

/-- Actions of `scaleServicesToZero`: one updateService(desiredCount 0)
request per service, plus an error event when any of them rejects. -/
def scaleServicesToZeroActions (env : AwsEnv) (cluster : String) (serviceArns : List String) :
    List Action :=
  (serviceArns.map fun s => Action.call (RemoteCall.updateService cluster s 0)) ++
    match collectResults (serviceArns.map env.updateServiceRes) with
    | Except.ok _ => []
    | Except.error e => [Action.emit (Ev.error e)]

/-- Value of `scaleServicesToZero`: the returned service records, or the
empty list when any per-service call rejects (the catch block discards the
successful results too). -/
def scaleServicesToZeroResult (env : AwsEnv) (cluster : String) (serviceArns : List String) :
    List Service :=
  match collectResults (serviceArns.map env.updateServiceRes) with
  | Except.ok ss => ss
  | Except.error _ => []

/-- Actions of `getAllTasksFor`: a single listTasks request (not
parameterized by launch type), plus an error event when it rejects. -/
def getAllTasksActions (env : AwsEnv) (cluster : String) : List Action :=
  Action.call (RemoteCall.listTasks cluster) ::
    match env.listTasksRes with
    | Except.ok _ => []
    | Except.error e => [Action.emit (Ev.error e)]

/-- Value of `getAllTasksFor`: the taskArns of the response, or the empty
list when the call rejects. -/
def getAllTasksResult (env : AwsEnv) (cluster : String) : List String :=
  match env.listTasksRes with
  | Except.ok arns => arns
  | Except.error _ => []

/-- Actions of `stopTasks`: one stopTask request per task, with the fixed
reason string, plus an error event when any of them rejects. -/
def stopTasksActions (env : AwsEnv) (cluster : String) (taskArns : List String) : List Action :=
  (taskArns.map fun t =>
      Action.call (RemoteCall.stopTask cluster t "Cluster being deleted")) ++
    match collectResults (taskArns.map env.stopTaskRes) with
    | Except.ok _ => []
    | Except.error e => [Action.emit (Ev.error e)]

/-- Value of `stopTasks`: the returned task records, or the empty list when
any per-task call rejects. -/
def stopTasksResult (env : AwsEnv) (cluster : String) (taskArns : List String) : List Task :=
  match collectResults (taskArns.map env.stopTaskRes) with
  | Except.ok ts => ts
  | Except.error _ => []

/-- Actions of `getAllInstancesFor`: a single listContainerInstances
request (not parameterized by launch type), plus an error event when it
rejects. -/
def getAllInstancesActions (env : AwsEnv) (cluster : String) : List Action :=
  Action.call (RemoteCall.listContainerInstances cluster) ::
    match env.listContainerInstancesRes with
    | Except.ok _ => []
    | Except.error e => [Action.emit (Ev.error e)]

/-- Value of `getAllInstancesFor`: the containerInstanceArns of the
response, or the empty list when the call rejects. -/
def getAllInstancesResult (env : AwsEnv) (cluster : String) : List String :=
  match env.listContainerInstancesRes with
  | Except.ok arns => arns
  | Except.error _ => []

/-- Actions of `deregisterContainerInstances`: one forced deregistration
request per instance, plus an error event when any of them rejects. -/
def deregisterContainerInstancesActions (env : AwsEnv) (cluster : String)
    (instances : List String) : List Action :=
  (instances.map fun i =>
      Action.call (RemoteCall.deregisterContainerInstance cluster i true)) ++
    match collectResults (instances.map env.deregisterRes) with
    | Except.ok _ => []
    | Except.error e => [Action.emit (Ev.error e)]

/-- Value of `deregisterContainerInstances`: the returned instance records,
or the empty list when any per-instance call rejects. -/
def deregisterContainerInstancesResult (env : AwsEnv) (cluster : String)
    (instances : List String) : List ContainerInstance :=
  match collectResults (instances.map env.deregisterRes) with
  | Except.ok is_ => is_
  | Except.error _ => []

/-- Actions of `deleteAllServices`: one deleteService request per service
name, plus an error event when any of them rejects. -/
def deleteAllServicesActions (env : AwsEnv) (cluster : String) (services : List String) :
    List Action :=
  (services.map fun s => Action.call (RemoteCall.deleteService cluster s)) ++
    match collectResults (services.map env.deleteServiceRes) with
    | Except.ok _ => []
    | Except.error e => [Action.emit (Ev.error e)]

/-- Actions of `deleteStack`: one deleteStack request addressed to the
conventional stack name, plus an error event when it rejects (the method
returns the error object instead of throwing). -/
def deleteStackActions (env : AwsEnv) (cluster : String) : List Action :=
  Action.call (RemoteCall.deleteStack ("EC2ContainerService-" ++ cluster)) ::
    match env.deleteStackRes with
    | Except.ok _ => []
    | Except.error e => [Action.emit (Ev.error e)]

/-- The fixed overall stack-deletion timeout of the bounded poller, in
milliseconds. -/
def TEN_MINUTES : Nat := 10 * 60 * 1000

/-- The fixed period of the observational resourceDeleted poll, in
milliseconds. -/
def TEN_SECONDS : Nat := 10 * 1000

/-- One run of `setupCloudFormationPolling`'s interval callback per
observed describeStackEvents response: each tick issues the
describeStackEvents request (addressed to the conventional stack name),
emits an error event when it rejects, and otherwise emits one
resourceDeleted event per DELETE_COMPLETE record whose logical resource id
is not in the alreadyDeleted list as of the start of the tick, extending
that list with the ids it reports. -/
def pollRun (cluster : String) : List String → List (Except String (List StackEvent)) →
    List Action
  | _, [] => []
  | alreadyDeleted, r :: rest =>
    Action.call (RemoteCall.describeStackEvents ("EC2ContainerService-" ++ cluster)) ::
      match r with
      | Except.error e => Action.emit (Ev.error e) :: pollRun cluster alreadyDeleted rest
      | Except.ok evs =>
        let news := (evs.filter fun e => e.ResourceStatus == "DELETE_COMPLETE").filter
          fun e => !(alreadyDeleted.contains e.LogicalResourceId)
        (news.map fun e => Action.emit (Ev.resourceDeleted e)) ++
          pollRun cluster (alreadyDeleted ++ news.map (·.LogicalResourceId)) rest

/-- The stack events the polling run reports, starting from a given
alreadyDeleted list: the per-tick batches of newly observed
DELETE_COMPLETE records, concatenated. -/
def pollNewEvents (alreadyDeleted : List String) : List (List StackEvent) → List StackEvent
  | [] => []
  | evs :: rest =>
    let news := (evs.filter fun e => e.ResourceStatus == "DELETE_COMPLETE").filter
      fun e => !(alreadyDeleted.contains e.LogicalResourceId)
    news ++ pollNewEvents (alreadyDeleted ++ news.map (·.LogicalResourceId)) rest

/-- Outcome of `pollCloudFormationForChanges`: the race of the
waitFor(stackDeleteComplete) promise against the ten-minute timer.  The
wait's settlement wins when it happens before the timeout; otherwise the
timer rejects with the timeout error. -/
def pollOutcome (env : AwsEnv) : Except String (List Stack) :=
  if env.waitForResolveMs < TEN_MINUTES then env.waitForResult
  else Except.error "CloudFormation stack deletion timed out!"

/-- Actions of `pollCloudFormationForChanges`: the waitFor request
addressed by the stack id, and the observational polling ticks that fire
before the race settles. -/
def pollActions (env : AwsEnv) (cluster : String) (s : Stack) : List Action :=
  Action.call (RemoteCall.waitForStackDeleteComplete s.StackId) ::
    pollRun cluster [] env.stackEventsResponses

/-- The alreadyDeleted list after the given ticks have run: the closure
array of `setupCloudFormationPolling`, extended tick by tick with the
newly reported logical resource ids. -/
def pollFinalDeleted (alreadyDeleted : List String) :
    List (Except String (List StackEvent)) → List String
  | [] => alreadyDeleted
  | r :: rest =>
    match r with
    | Except.error _ => pollFinalDeleted alreadyDeleted rest
    | Except.ok evs =>
      let news := (evs.filter fun e => e.ResourceStatus == "DELETE_COMPLETE").filter
        fun e => !(alreadyDeleted.contains e.LogicalResourceId)
      pollFinalDeleted (alreadyDeleted ++ news.map (·.LogicalResourceId)) rest

/-- Ticks of the leaked interval after the race settles.  The source
clears the ten-second interval only in the waitFor success continuation
and in the timeout handler; when the waitFor promise rejects before the
timeout, the interval keeps firing with the same alreadyDeleted list —
emitting further resourceDeleted and error events after the pipeline's
doneWithError — until the ten-minute timer eventually clears it. -/
def pollLeakActions (env : AwsEnv) (cluster : String) : List Action :=
  if env.waitForResolveMs < TEN_MINUTES then
    match env.waitForResult with
    | Except.ok _ => []
    | Except.error _ =>
      pollRun cluster (pollFinalDeleted [] env.stackEventsResponses)
        env.lateStackEventsResponses
  else []

/-- Actions of `deleteCluster`: the deleteCluster request, plus a
doneWithError event when it rejects (the method swallows the error and
returns undefined instead of throwing). -/
def deleteClusterActions (env : AwsEnv) (cluster : String) : List Action :=
  Action.call (RemoteCall.deleteCluster cluster) ::
    match env.deleteClusterRes with
    | Except.ok _ => []
    | Except.error e => [Action.emit (Ev.doneWithError e)]

/-- Value of `deleteCluster`: the deleted cluster record, or undefined when
the call rejects. -/
def deleteClusterResult (env : AwsEnv) (cluster : String) : Option Cluster :=
  match env.deleteClusterRes with
  | Except.ok c => some c
  | Except.error _ => none

/-- The options bag of the entry point. -/
structure Options where
  verbose : Bool
deriving DecidableEq, Repr

/-- The doneWithError message for a missing cluster. -/
def noClusterMessage (cluster : String) : String :=
  "Cluster " ++ cluster ++ " does not exist in the region specified"

/-- The verbose-mode console log at the end of a completed run. -/
def verboseLog (options : Options) : List Action :=
  if options.verbose then [Action.log] else []

/-- Steps 2-3 of the pipeline: when the service discovery found anything,
emit servicesFound, scale every found service to zero, and emit
servicesScaledDown with the aggregated result. -/
def servicesPhaseActions (env : AwsEnv) (launchTypes : List String) (cluster : String) :
    List Action :=
  getAllServicesActions env launchTypes cluster ++
    (if 0 < (getAllServicesResult env launchTypes cluster).length then
      Action.emit (Ev.servicesFound (getAllServicesResult env launchTypes cluster)) ::
        scaleServicesToZeroActions env cluster (getAllServicesResult env launchTypes cluster) ++
        [Action.emit (Ev.servicesScaledDown
          (scaleServicesToZeroResult env cluster (getAllServicesResult env launchTypes cluster)))]
    else [])

/-- The services list the later servicesDeleted step reuses: the scaled
services when the discovery found anything (empty after a scaling
rejection), undefined-as-empty otherwise. -/
def scaledServices (env : AwsEnv) (launchTypes : List String) (cluster : String) :
    List Service :=
  if 0 < (getAllServicesResult env launchTypes cluster).length then
    scaleServicesToZeroResult env cluster (getAllServicesResult env launchTypes cluster)
  else []

/-- The task discovery/mutation pair: when the discovery found anything,
emit tasksFound, stop every found task, and emit tasksStopped. -/
def tasksPhaseActions (env : AwsEnv) (cluster : String) : List Action :=
  getAllTasksActions env cluster ++
    (if 0 < (getAllTasksResult env cluster).length then
      Action.emit (Ev.tasksFound (getAllTasksResult env cluster)) ::
        stopTasksActions env cluster (getAllTasksResult env cluster) ++
        [Action.emit (Ev.tasksStopped (stopTasksResult env cluster (getAllTasksResult env cluster)))]
    else [])

/-- The instance discovery/mutation pair: when the discovery found
anything, emit instancesFound, deregister every found instance, and emit
instancesDeregistered. -/
def instancesPhaseActions (env : AwsEnv) (cluster : String) : List Action :=
  getAllInstancesActions env cluster ++
    (if 0 < (getAllInstancesResult env cluster).length then
      Action.emit (Ev.instancesFound (getAllInstancesResult env cluster)) ::
        deregisterContainerInstancesActions env cluster (getAllInstancesResult env cluster) ++
        [Action.emit (Ev.instancesDeregistered
          (deregisterContainerInstancesResult env cluster (getAllInstancesResult env cluster)))]
    else [])

/-- The service-deletion step: when the original service discovery found
anything, delete the scaled services by name and emit servicesDeleted
carrying the scaled-service records. -/
def servicesDeletePhaseActions (env : AwsEnv) (launchTypes : List String) (cluster : String) :
    List Action :=
  if 0 < (getAllServicesResult env launchTypes cluster).length then
    deleteAllServicesActions env cluster
        ((scaledServices env launchTypes cluster).map (·.serviceName)) ++
      [Action.emit (Ev.servicesDeleted (scaledServices env launchTypes cluster))]
  else []

/-- The tail of the pipeline.  With a stack: request its deletion, emit
stackDeletionStarted, run the bounded poll; on success emit
stackDeletionDone, delete the cluster (whose own rejection path emits
doneWithError), emit clusterDeleted and done; on poll failure emit
doneWithError and stop the pipeline — though after a waitFor rejection the
leaked interval's remaining ticks still follow (pollLeakActions).  Without
a stack: delete the cluster directly and emit clusterDeleted and done. -/
def tailActions (env : AwsEnv) (cluster : String) (stack : Option Stack)
    (options : Options) : List Action :=
  match stack with
  | some s =>
    deleteStackActions env cluster ++
      [Action.emit (Ev.stackDeletionStarted s.StackId)] ++
      pollActions env cluster s ++
      (match pollOutcome env with
      | Except.ok _ =>
        [Action.emit (Ev.stackDeletionDone s.StackId)] ++
          deleteClusterActions env cluster ++
          [Action.emit (Ev.clusterDeleted (deleteClusterResult env cluster)),
            Action.emit (Ev.done cluster)] ++
          verboseLog options
      | Except.error e =>
        [Action.emit (Ev.doneWithError e)] ++ pollLeakActions env cluster)
  | none =>
    deleteClusterActions env cluster ++
      [Action.emit (Ev.clusterDeleted (deleteClusterResult env cluster)),
        Action.emit (Ev.done cluster)] ++
      verboseLog options

/-- The stackFound emission gated on the discovered stack. -/
def stackFoundActions (stack : Option Stack) : List Action :=
  match stack with
  | some s => [Action.emit (Ev.stackFound s)]
  | none => []

/-- The background pipeline `deleteHelper`: emit start, verify existence
(terminating with doneWithError when the cluster is absent or inactive),
then run discovery/mutation phases in the fixed order and the stack or
no-stack tail. -/
def deleteHelper (env : AwsEnv) (launchTypes : List String) (cluster : String)
    (options : Options) : List Action :=
  Action.emit (Ev.start cluster) ::
    describeClusterActions env cluster ++
    (if doesClusterExistResult env cluster then
      describeStackActions env cluster ++
        stackFoundActions (describeStackResult env cluster) ++
        servicesPhaseActions env launchTypes cluster ++
        tasksPhaseActions env cluster ++
        instancesPhaseActions env cluster ++
        servicesDeletePhaseActions env launchTypes cluster ++
        tailActions env cluster (describeStackResult env cluster) options
    else [Action.emit (Ev.doneWithError (noClusterMessage cluster))])

/-- The entry point `deleteClusterAndResources`: control returns the event
emitter to the caller at once (setImmediate defers the whole pipeline), so
the returned-event-source step precedes every background action. -/
def deleteClusterAndResources (env : AwsEnv) (launchTypes : List String) (cluster : String)
    (options : Options) : List Action :=
  Action.returnEventSource :: deleteHelper env launchTypes cluster options

end ClusterCleanup

namespace ECSClusterManager

/-- Actions of the TypeScript `getAllServicesFor`: one listServices request
per configured launch type; its catch block logs to the console instead of
emitting an event. -/
def getAllServicesActions (env : AwsEnv) (launchTypes : List String) (clusterName : String) :
    List Action :=
  (launchTypes.map fun l => Action.call (RemoteCall.listServices clusterName l)) ++
    match collectResults (launchTypes.map env.listServicesRes) with
    | Except.ok _ => []
    | Except.error _ => [Action.log]

/-- Value of the TypeScript `getAllServicesFor`: the concatenated
serviceArns, or the empty list on any rejection. -/
def getAllServicesResult (env : AwsEnv) (launchTypes : List String) (clusterName : String) :
    List String :=
  match collectResults (launchTypes.map env.listServicesRes) with
  | Except.ok rs => rs.flatten
  | Except.error _ => []

/-- Actions of the TypeScript `scaleServicesToZero`: one updateService
request per service; its catch block logs to the console. -/
def scaleServicesToZeroActions (env : AwsEnv) (clusterName : String)
    (serviceArns : List String) : List Action :=
  (serviceArns.map fun s => Action.call (RemoteCall.updateService clusterName s 0)) ++
    match collectResults (serviceArns.map env.updateServiceRes) with
    | Except.ok _ => []
    | Except.error _ => [Action.log]

/-- The TypeScript entry point `deleteClusterAndResources`: it awaits the
service discovery, awaits the scale-down and logs its result, and only
then creates and returns a fresh event emitter — so the remote calls
precede the returned-event-source step. -/
def deleteClusterAndResources (env : AwsEnv) (launchTypes : List String)
    (clusterName : String) : List Action :=
  getAllServicesActions env launchTypes clusterName ++
    scaleServicesToZeroActions env clusterName
      (getAllServicesResult env launchTypes clusterName) ++
    [Action.log, Action.returnEventSource]

end ECSClusterManager

/-- One field assignment of a constructor body, in execution order. -/
inductive InitStep where
  | assignEcs
  | assignCloudFormation
  | assignLaunchTypes
  | assignEvents
  | pushFargate
deriving DecidableEq, Repr

/-- The configuration object consumed at construction; only the
enableFargate flag is read by the constructor bodies. -/
structure CMConfig where
  enableFargate : Bool
deriving DecidableEq, Repr

/-- The `ClusterCleanup` constructor: it assigns the ecs client, the
cloudFormation client, the launchTypes list and the events emitter, and
then unconditionally reads `config.enableFargate` — a TypeError when the
config argument is undefined.  Returns the executed field assignments and
either the TypeError or the resulting launchTypes list. -/
def ClusterCleanup.construct (config : Option CMConfig) :
    List InitStep × Except String (List String) :=
  let assigned := [InitStep.assignEcs, InitStep.assignCloudFormation,
    InitStep.assignLaunchTypes, InitStep.assignEvents]
  match config with
  | none =>
    (assigned, Except.error "TypeError: cannot read property enableFargate of undefined")
  | some cfg =>
    if cfg.enableFargate then (assigned ++ [InitStep.pushFargate], Except.ok ["EC2", "FARGATE"])
    else (assigned, Except.ok ["EC2"])

/-- The `ECSClusterManager` constructor (whose TypeScript signature marks
the config parameter optional): it assigns the ecs client and the
launchTypes list, and then unconditionally reads `config.enableFargate` —
a TypeError when the argument is absent. -/
def ECSClusterManager.construct (config : Option CMConfig) :
    List InitStep × Except String (List String) :=
  let assigned := [InitStep.assignEcs, InitStep.assignLaunchTypes]
  match config with
  | none =>
    (assigned, Except.error "TypeError: cannot read property enableFargate of undefined")
  | some cfg =>
    if cfg.enableFargate then (assigned ++ [InitStep.pushFargate], Except.ok ["EC2", "FARGATE"])
    else (assigned, Except.ok ["EC2"])

/-- A quiescent remote world: every call succeeds and finds nothing;
concrete environments below override the fields a scenario needs. -/
def idleEnv : AwsEnv where
  describeClustersRes := Except.ok []
  describeStacksRes := Except.ok []
  listServicesRes := fun _ => Except.ok []
  updateServiceRes := fun s => Except.ok ⟨s⟩
  listTasksRes := Except.ok []
  stopTaskRes := fun t => Except.ok ⟨t⟩
  listContainerInstancesRes := Except.ok []
  deregisterRes := fun i => Except.ok ⟨i⟩
  deleteServiceRes := fun s => Except.ok ⟨s⟩
  deleteStackRes := Except.ok ()
  stackEventsResponses := []
  lateStackEventsResponses := []
  waitForResolveMs := 0
  waitForResult := Except.ok []
  deleteClusterRes := Except.ok ⟨"default", "INACTIVE"⟩

/-- The action list up to (excluding) the step that returns the event
source to the caller. -/
def actionsBeforeReturn (l : List Action) : List Action :=
  l.takeWhile fun a => a != Action.returnEventSource

/-- Whether a remote call mutates remote state (scales, stops, deregisters
or deletes something), as opposed to the read-only describe/list/wait
calls. -/
def RemoteCall.isMutation : RemoteCall → Bool
  | RemoteCall.updateService _ _ _ => true
  | RemoteCall.stopTask _ _ _ => true
  | RemoteCall.deregisterContainerInstance _ _ _ => true
  | RemoteCall.deleteService _ _ => true
  | RemoteCall.deleteStack _ => true
  | RemoteCall.deleteCluster _ => true
  | _ => false

/-- Whether an action list issues the cluster-deletion remote call. -/
def hasDeleteClusterCall (l : List Action) : Bool :=
  l.any fun a =>
    match a with
    | Action.call (RemoteCall.deleteCluster _) => true
    | _ => false

/-- Whether an action list emits a clusterDeleted event. -/
def hasClusterDeletedEmit (l : List Action) : Bool :=
  l.any fun a =>
    match a with
    | Action.emit (Ev.clusterDeleted _) => true
    | _ => false

/-- Whether an action list issues any mutating remote call. -/
def hasMutationCall (l : List Action) : Bool :=
  l.any fun a =>
    match a with
    | Action.call rc => rc.isMutation
    | _ => false

/-- The logical resource ids of the resourceDeleted events of an action
list, in emission order. -/
def resourceDeletedIds (l : List Action) : List String :=
  l.filterMap fun a =>
    match a with
    | Action.emit (Ev.resourceDeleted e) => some e.LogicalResourceId
    | _ => none

/-- A run in which the cluster exists, every call succeeds, the cluster has
a stack, the given services, tasks and instances, and the polling ticks
observe the given stack-event histories. -/
def happyEnv (cluster : String) (s : Stack) (svcArns taskArns instArns : List String)
    (ticks : List (List StackEvent)) : AwsEnv :=
  { idleEnv with
    describeClustersRes := Except.ok [⟨cluster, "ACTIVE"⟩]
    describeStacksRes := Except.ok [s]
    listServicesRes := fun _ => Except.ok svcArns
    listTasksRes := Except.ok taskArns
    listContainerInstancesRes := Except.ok instArns
    stackEventsResponses := ticks.map Except.ok
    waitForResult := Except.ok [s]
    deleteClusterRes := Except.ok ⟨cluster, "INACTIVE"⟩ }

/-- A run in which the cluster exists with no stack, the given services are
found, and scaling the service named bad rejects while every other
per-service call succeeds. -/
def scaleFailEnv (cluster : String) (svcArns : List String) : AwsEnv :=
  { idleEnv with
    describeClustersRes := Except.ok [⟨cluster, "ACTIVE"⟩]
    listServicesRes := fun _ => Except.ok svcArns
    updateServiceRes := fun s =>
      if s == "bad" then Except.error "scale failed" else Except.ok ⟨s⟩
    deleteClusterRes := Except.ok ⟨cluster, "ACTIVE"⟩ }

/-- A run in which the cluster "demo" exists with no stack and no
resources, and the final deleteCluster call rejects. -/
def finalDeleteFailEnv : AwsEnv :=
  { idleEnv with
    describeClustersRes := Except.ok [⟨"demo", "ACTIVE"⟩]
    deleteClusterRes := Except.error "delete cluster failed" }

/-- A run in which the cluster "demo" exists, services a b c are found, the
scale-down of b rejects while a and c succeed, and everything else
succeeds (no stack). -/
def oneScaleFailEnv : AwsEnv :=
  { idleEnv with
    describeClustersRes := Except.ok [⟨"demo", "ACTIVE"⟩]
    listServicesRes := fun _ => Except.ok ["a", "b", "c"]
    updateServiceRes := fun s =>
      if s == "b" then Except.error "scale failed" else Except.ok ⟨s⟩
    deleteClusterRes := Except.ok ⟨"demo", "ACTIVE"⟩ }

/-- A remote world in which the cluster "demo" has the single service svc1;
used to exercise the TypeScript entry point. -/
def oneServiceEnv : AwsEnv :=
  { idleEnv with listServicesRes := fun _ => Except.ok ["svc1"] }

/-- A happy run for cluster "demo" whose waitFor settlement only arrives at
the ten-minute mark, so the timeout wins the race. -/
def timeoutEnv : AwsEnv :=
  { happyEnv "demo" ⟨"sid"⟩ ["s1"] [] [] [] with
    waitForResolveMs := ClusterCleanup.TEN_MINUTES }

/-- A run for cluster "demo" with a stack and no resources in which the
waitFor promise rejects before the timeout, and one tick of the leaked
interval then observes resource R1 as delete-complete. -/
def waitRejectEnv : AwsEnv :=
  { idleEnv with
    describeClustersRes := Except.ok [⟨"demo", "ACTIVE"⟩]
    describeStacksRes := Except.ok [⟨"sid"⟩]
    waitForResult := Except.error "wait failed"
    lateStackEventsResponses := [Except.ok [⟨"R1", "DELETE_COMPLETE"⟩]] }

open ClusterCleanup

/-- C3: the claim says that after a failed final cluster-deletion call the
terminal doneWithError is the last event of the run.  Evaluating the
pipeline at the failing input (existing cluster "demo", no stack, no
resources, rejecting deleteCluster call): `deleteCluster` swallows the
rejection, emits doneWithError and returns undefined, after which the
pipeline still emits clusterDeleted (with an undefined payload) and done.
The code contradicts the claimed terminality of doneWithError. -/
theorem c3_final_deletion_failure_eval :
    eventsOf (deleteHelper finalDeleteFailEnv ["EC2"] "demo" ⟨false⟩) =
      [Ev.start "demo", Ev.doneWithError "delete cluster failed",
        Ev.clusterDeleted none, Ev.done "demo"] := rfl

/-- C10 counterexample: constructing `ECSClusterManager` without a config
does fail with a TypeError, but only after the ecs and launchTypes fields
have already been assigned — the executed field assignments at the throw
are not empty, contradicting "throws before any field of the instance is
initialized". -/
theorem c10_counterexample :
    (ECSClusterManager.construct none).1 = [InitStep.assignEcs, InitStep.assignLaunchTypes] ∧
    (ECSClusterManager.construct none).1 ≠ [] ∧
    (ECSClusterManager.construct none).2 =
      Except.error "TypeError: cannot read property enableFargate of undefined" :=
  ⟨rfl, by decide, rfl⟩

/-- C10 amended: calling either constructor with the config argument
absent throws a TypeError at the unconditional read of enableFargate, but
only after the earlier field assignments of the constructor body (ecs,
cloudFormation, launchTypes and events for ClusterCleanup; ecs and
launchTypes for ECSClusterManager) have executed. -/
theorem c10_amended_construct_throws :
    (ClusterCleanup.construct none).2 =
      Except.error "TypeError: cannot read property enableFargate of undefined" ∧
    (ClusterCleanup.construct none).1 = [InitStep.assignEcs, InitStep.assignCloudFormation,
      InitStep.assignLaunchTypes, InitStep.assignEvents] ∧
    (ECSClusterManager.construct none).2 =
      Except.error "TypeError: cannot read property enableFargate of undefined" ∧
    (ECSClusterManager.construct none).1 = [InitStep.assignEcs, InitStep.assignLaunchTypes] :=
  ⟨rfl, rfl, rfl, rfl⟩

/-- C2 amended: the `ClusterCleanup` entry point returns the event source
before anything else happens — no action at all, in particular no remote
call, precedes the returned-event-source step, for every environment,
cluster and options; and the step always occurs (the entry point always
returns the emitter, never a failing value). -/
theorem c2_amended_entry_returns_first (env : AwsEnv) (launchTypes : List String)
    (cluster : String) (options : ClusterCleanup.Options) :
    actionsBeforeReturn (ClusterCleanup.deleteClusterAndResources env launchTypes cluster options)
        = [] ∧
    Action.returnEventSource ∈
      ClusterCleanup.deleteClusterAndResources env launchTypes cluster options :=
  ⟨rfl, List.mem_cons_self _ _⟩

/-- C2 counterexample: the `ECSClusterManager` entry point (also cited by
the claim) issues the service-discovery and scale-down remote calls before
it creates and returns its event emitter, so the claim that the entry
point returns the event source before any remote call is issued is false
for it. -/
theorem c2_counterexample :
    callsOf (actionsBeforeReturn
        (ECSClusterManager.deleteClusterAndResources oneServiceEnv ["EC2"] "demo")) =
      [RemoteCall.listServices "demo" "EC2", RemoteCall.updateService "demo" "svc1" 0] ∧
    callsOf (actionsBeforeReturn
        (ECSClusterManager.deleteClusterAndResources oneServiceEnv ["EC2"] "demo")) ≠ [] :=
  ⟨rfl, by decide⟩

/-- C7 counterexample: with Fargate enabled the configuration carries two
launch-type scopes, and the services discovery indeed issues one scoped
query per scope; but the task and instance discoveries each issue exactly
one remote call, not parameterized by launch type at all — so it is false
that every discovery step queries each enabled launch-type scope. -/
theorem c7_counterexample :
    (ClusterCleanup.construct (some ⟨true⟩)).2 = Except.ok ["EC2", "FARGATE"] ∧
    callsOf (getAllServicesActions idleEnv ["EC2", "FARGATE"] "demo") =
      [RemoteCall.listServices "demo" "EC2", RemoteCall.listServices "demo" "FARGATE"] ∧
    callsOf (getAllTasksActions idleEnv "demo") = [RemoteCall.listTasks "demo"] ∧
    (callsOf (getAllTasksActions idleEnv "demo")).length = 1 ∧
    callsOf (getAllInstancesActions idleEnv "demo") = [RemoteCall.listContainerInstances "demo"] ∧
    (callsOf (getAllInstancesActions idleEnv "demo")).length = 1 :=
  ⟨rfl, rfl, rfl, rfl, rfl, rfl⟩

/-- C8 counterexample: within a single polling tick the source filters the
whole event history against the alreadyDeleted list before pushing any id
to it, so one describeStackEvents response that lists the same logical
resource id twice in the DELETE_COMPLETE state makes the poll emit
resourceDeleted twice for that id within one polling run — contradicting
"at most once per logical resource identifier". -/
theorem c8_counterexample :
    eventsOf (pollRun "demo" []
        [Except.ok [⟨"ResA", "DELETE_COMPLETE"⟩, ⟨"ResA", "DELETE_COMPLETE"⟩]]) =
      [Ev.resourceDeleted ⟨"ResA", "DELETE_COMPLETE"⟩,
        Ev.resourceDeleted ⟨"ResA", "DELETE_COMPLETE"⟩] ∧
    resourceDeletedIds (pollRun "demo" []
        [Except.ok [⟨"ResA", "DELETE_COMPLETE"⟩, ⟨"ResA", "DELETE_COMPLETE"⟩]]) =
      ["ResA", "ResA"] :=
  ⟨rfl, rfl⟩

theorem collectResults_map_ok {α β : Type} (f : α → β) (l : List α) :
    collectResults (l.map fun a => Except.ok (f a)) = Except.ok (l.map f) := by
  induction l with
  | nil => rfl
  | cons a rest ih => simp [collectResults, ih]

theorem collectResults_error {β : Type} (f : String → Except String β) (l : List String)
    (msg : String) (hmem : ∃ a ∈ l, f a = Except.error msg)
    (huniq : ∀ a ∈ l, ∀ m, f a = Except.error m → m = msg) :
    collectResults (l.map f) = Except.error msg := by
  induction l with
  | nil => simp at hmem
  | cons a rest ih =>
    cases hfa : f a with
    | error m =>
      have : m = msg := huniq a (List.mem_cons_self _ _) m hfa
      simp [collectResults, hfa, this]
    | ok b =>
      have hmem' : ∃ x ∈ rest, f x = Except.error msg := by
        rcases hmem with ⟨x, hx, hfx⟩
        rcases List.mem_cons.mp hx with rfl | hx'
        · rw [hfa] at hfx; cases hfx
        · exact ⟨x, hx', hfx⟩
      have huniq' : ∀ x ∈ rest, ∀ m, f x = Except.error m → m = msg := fun x hx =>
        huniq x (List.mem_cons_of_mem _ hx)
      simp [collectResults, hfa, ih hmem' huniq']

theorem eventsOf_append (l1 l2 : List Action) :
    eventsOf (l1 ++ l2) = eventsOf l1 ++ eventsOf l2 := by
  simp [eventsOf]

theorem callsOf_append (l1 l2 : List Action) :
    callsOf (l1 ++ l2) = callsOf l1 ++ callsOf l2 := by
  simp [callsOf]

theorem eventsOf_cons_call (c : RemoteCall) (l : List Action) :
    eventsOf (Action.call c :: l) = eventsOf l := by
  simp [eventsOf]

theorem eventsOf_cons_emit (e : Ev) (l : List Action) :
    eventsOf (Action.emit e :: l) = e :: eventsOf l := by
  simp [eventsOf]

theorem callsOf_cons_call (c : RemoteCall) (l : List Action) :
    callsOf (Action.call c :: l) = c :: callsOf l := by
  simp [callsOf]

theorem callsOf_cons_emit (e : Ev) (l : List Action) :
    callsOf (Action.emit e :: l) = callsOf l := by
  simp [callsOf]

theorem eventsOf_map_call {α : Type} (f : α → RemoteCall) (l : List α) :
    eventsOf (l.map fun a => Action.call (f a)) = [] := by
  induction l with
  | nil => rfl
  | cons a rest ih => rw [List.map_cons, eventsOf_cons_call, ih]

theorem eventsOf_map_emit {α : Type} (f : α → Ev) (l : List α) :
    eventsOf (l.map fun a => Action.emit (f a)) = l.map f := by
  induction l with
  | nil => rfl
  | cons a rest ih => rw [List.map_cons, eventsOf_cons_emit, ih, List.map_cons]

theorem callsOf_map_call {α : Type} (f : α → RemoteCall) (l : List α) :
    callsOf (l.map fun a => Action.call (f a)) = l.map f := by
  induction l with
  | nil => rfl
  | cons a rest ih => rw [List.map_cons, callsOf_cons_call, ih, List.map_cons]

theorem callsOf_map_emit {α : Type} (f : α → Ev) (l : List α) :
    callsOf (l.map fun a => Action.emit (f a)) = [] := by
  induction l with
  | nil => rfl
  | cons a rest ih => rw [List.map_cons, callsOf_cons_emit, ih]

theorem callsOf_describeClusterActions (env : AwsEnv) (cluster : String) :
    callsOf (describeClusterActions env cluster) = [RemoteCall.describeClusters [cluster]] := by
  cases h : env.describeClustersRes <;> simp [describeClusterActions, callsOf, h]

theorem callsOf_describeStackActions (env : AwsEnv) (cluster : String) :
    callsOf (describeStackActions env cluster) =
      [RemoteCall.describeStacks ("EC2ContainerService-" ++ cluster)] := by
  cases h : env.describeStacksRes <;> simp [describeStackActions, callsOf, h]

theorem callsOf_deleteStackActions (env : AwsEnv) (cluster : String) :
    callsOf (deleteStackActions env cluster) =
      [RemoteCall.deleteStack ("EC2ContainerService-" ++ cluster)] := by
  cases h : env.deleteStackRes <;> simp [deleteStackActions, callsOf, h]

theorem callsOf_getAllServicesActions (env : AwsEnv) (launchTypes : List String)
    (cluster : String) :
    callsOf (getAllServicesActions env launchTypes cluster) =
      launchTypes.map fun l => RemoteCall.listServices cluster l := by
  rw [getAllServicesActions, callsOf_append, callsOf_map_call]
  cases h : collectResults (launchTypes.map env.listServicesRes) <;> simp [callsOf, h]

theorem callsOf_getAllTasksActions (env : AwsEnv) (cluster : String) :
    callsOf (getAllTasksActions env cluster) = [RemoteCall.listTasks cluster] := by
  cases h : env.listTasksRes <;> simp [getAllTasksActions, callsOf, h]

theorem callsOf_getAllInstancesActions (env : AwsEnv) (cluster : String) :
    callsOf (getAllInstancesActions env cluster) = [RemoteCall.listContainerInstances cluster] := by
  cases h : env.listContainerInstancesRes <;> simp [getAllInstancesActions, callsOf, h]

theorem callsOf_pollRun (cluster : String) (ad : List String)
    (rs : List (Except String (List StackEvent))) :
    callsOf (pollRun cluster ad rs) =
      List.replicate rs.length
        (RemoteCall.describeStackEvents ("EC2ContainerService-" ++ cluster)) := by
  induction rs generalizing ad with
  | nil => rfl
  | cons r rest ih =>
    cases r with
    | error e =>
      simp [pollRun, callsOf_cons_call, callsOf_cons_emit, ih, List.replicate_succ]
    | ok evs =>
      simp [pollRun, callsOf_cons_call, callsOf_append, callsOf_map_emit, ih,
        List.replicate_succ]

theorem eventsOf_pollRun_okTicks (cluster : String) (ad : List String)
    (ticks : List (List StackEvent)) :
    eventsOf (pollRun cluster ad (ticks.map Except.ok)) =
      (pollNewEvents ad ticks).map Ev.resourceDeleted := by
  induction ticks generalizing ad with
  | nil => rfl
  | cons evs rest ih =>
    simp only [List.map_cons, pollRun, pollNewEvents]
    rw [eventsOf_cons_call, eventsOf_append, eventsOf_map_emit, ih, List.map_append]

/-- C9: every stack-addressed operation — describe stack, delete stack and
each describe-stack-events request of the polling ticks — addresses the
stack by exactly the name EC2ContainerService-X for cluster X. -/
theorem c9_stack_operations_naming (env : AwsEnv) (cluster : String)
    (alreadyDeleted : List String) (responses : List (Except String (List StackEvent))) :
    callsOf (describeStackActions env cluster) =
      [RemoteCall.describeStacks ("EC2ContainerService-" ++ cluster)] ∧
    callsOf (deleteStackActions env cluster) =
      [RemoteCall.deleteStack ("EC2ContainerService-" ++ cluster)] ∧
    callsOf (pollRun cluster alreadyDeleted responses) =
      List.replicate responses.length
        (RemoteCall.describeStackEvents ("EC2ContainerService-" ++ cluster)) :=
  ⟨callsOf_describeStackActions env cluster, callsOf_deleteStackActions env cluster,
    callsOf_pollRun cluster alreadyDeleted responses⟩

/-- C7 amended: only the services discovery queries each configured
launch-type scope (one listServices request per scope, in scope order) and
merges the per-scope results into one ordered sequence; the task and
instance discoveries each issue a single request not parameterized by
launch type. -/
theorem c7_amended_discovery_scopes (env : AwsEnv) (launchTypes : List String)
    (cluster : String) (f : String → List String) :
    callsOf (getAllServicesActions env launchTypes cluster) =
      (launchTypes.map fun l => RemoteCall.listServices cluster l) ∧
    getAllServicesResult { idleEnv with listServicesRes := fun l => Except.ok (f l) }
        launchTypes cluster = (launchTypes.map f).flatten ∧
    callsOf (getAllTasksActions env cluster) = [RemoteCall.listTasks cluster] ∧
    callsOf (getAllInstancesActions env cluster) = [RemoteCall.listContainerInstances cluster] := by
  refine ⟨callsOf_getAllServicesActions env launchTypes cluster, ?_,
    callsOf_getAllTasksActions env cluster, callsOf_getAllInstancesActions env cluster⟩
  simp [getAllServicesResult, collectResults_map_ok]

theorem doesClusterExist_false_of_no_active (env : AwsEnv) (cluster : String)
    (cs : List Cluster) (hDesc : env.describeClustersRes = Except.ok cs)
    (hAll : ∀ c ∈ cs, c.status = "INACTIVE" ∨ c.clusterName ≠ cluster) :
    doesClusterExistResult env cluster = false := by
  have hnil : ((cs.filter fun c => c.status != "INACTIVE").filter
      fun c => c.clusterName == cluster) = [] := by
    rw [List.filter_filter]
    apply List.filter_eq_nil_iff.mpr
    intro c hc
    rcases hAll c hc with h | h
    · simp [h]
    · simp [h]
  simp [doesClusterExistResult, describeClusterResult, hDesc, hnil]

/-- C6: for a cluster that is absent from the describe response, or present
only with INACTIVE status, the pipeline emits exactly start followed by the
terminal doneWithError carrying the descriptive message, and issues no
mutating remote call of any kind. -/
theorem c6_missing_cluster (env : AwsEnv) (launchTypes : List String) (cluster : String)
    (options : ClusterCleanup.Options) (cs : List Cluster)
    (hDesc : env.describeClustersRes = Except.ok cs)
    (hAll : ∀ c ∈ cs, c.status = "INACTIVE" ∨ c.clusterName ≠ cluster) :
    eventsOf (deleteHelper env launchTypes cluster options) =
      [Ev.start cluster, Ev.doneWithError (noClusterMessage cluster)] ∧
    hasMutationCall (deleteHelper env launchTypes cluster options) = false := by
  have hex := doesClusterExist_false_of_no_active env cluster cs hDesc hAll
  constructor
  · simp [deleteHelper, hex, describeClusterActions, hDesc, eventsOf_cons_emit,
      eventsOf_cons_call, eventsOf_append, eventsOf]
  · simp [deleteHelper, hex, describeClusterActions, hDesc, hasMutationCall,
      RemoteCall.isMutation]

/-- C6 witness: a remote world whose describe response lists no clusters at
all; the run for cluster "demo" emits exactly start and doneWithError and
issues no mutation. -/
theorem c6_missing_cluster_witness :
    eventsOf (deleteHelper idleEnv ["EC2"] "demo" ⟨false⟩) =
      [Ev.start "demo", Ev.doneWithError (noClusterMessage "demo")] ∧
    hasMutationCall (deleteHelper idleEnv ["EC2"] "demo" ⟨false⟩) = false :=
  c6_missing_cluster idleEnv ["EC2"] "demo" ⟨false⟩ [] rfl (by simp)

theorem eventsOf_nil : eventsOf [] = [] := rfl

theorem callsOf_nil : callsOf [] = [] := rfl

/-- C1 amended: when one of the per-service scale-down calls rejects (here
the service named bad, surrounded by arbitrary other services), the step
emits exactly one non-terminal error event and its aggregated
servicesScaledDown event carries the empty list — all per-call results,
including the successful ones, are discarded by the catch block — and the
pipeline still continues to completion, reaching done. -/
theorem c1_amended_partial_failure (cluster : String) (pre post : List String) :
    eventsOf (deleteHelper (scaleFailEnv cluster (pre ++ "bad" :: post)) ["EC2"] cluster
        ⟨false⟩) =
      [Ev.start cluster, Ev.servicesFound (pre ++ "bad" :: post), Ev.error "scale failed",
        Ev.servicesScaledDown [], Ev.servicesDeleted [],
        Ev.clusterDeleted (some ⟨cluster, "ACTIVE"⟩), Ev.done cluster] := by
  have herr : collectResults ((pre ++ "bad" :: post).map fun s =>
      if s == "bad" then Except.error "scale failed" else Except.ok (⟨s⟩ : Service)) =
      Except.error "scale failed" := by
    apply collectResults_error
    · exact ⟨"bad", by simp, by simp⟩
    · intro a _ m hm
      by_cases h : a == "bad"
      · simp [h] at hm
        exact hm.symm
      · simp [h] at hm
  have hex : doesClusterExistResult (scaleFailEnv cluster (pre ++ "bad" :: post)) cluster
      = true := by
    simp [doesClusterExistResult, describeClusterResult, scaleFailEnv, idleEnv]
  have hsvc : getAllServicesResult (scaleFailEnv cluster (pre ++ "bad" :: post)) ["EC2"]
      cluster = pre ++ "bad" :: post := by
    simp [getAllServicesResult, scaleFailEnv, idleEnv, collectResults]
  have hstack : describeStackResult (scaleFailEnv cluster (pre ++ "bad" :: post)) cluster
      = none := by
    simp [describeStackResult, scaleFailEnv, idleEnv]
  have hlen : 0 < (pre ++ "bad" :: post).length := by
    rw [List.length_append, List.length_cons]
    omega
  have herr2 : collectResults ((pre ++ "bad" :: post).map
      (scaleFailEnv cluster (pre ++ "bad" :: post)).updateServiceRes) =
      Except.error "scale failed" := herr
  have hdca : describeClusterActions (scaleFailEnv cluster (pre ++ "bad" :: post)) cluster =
      [Action.call (RemoteCall.describeClusters [cluster])] := by
    simp [describeClusterActions, scaleFailEnv, idleEnv]
  have hdsa : describeStackActions (scaleFailEnv cluster (pre ++ "bad" :: post)) cluster =
      [Action.call (RemoteCall.describeStacks ("EC2ContainerService-" ++ cluster))] := by
    simp [describeStackActions, scaleFailEnv, idleEnv]
  have hgsa : getAllServicesActions (scaleFailEnv cluster (pre ++ "bad" :: post)) ["EC2"]
      cluster = [Action.call (RemoteCall.listServices cluster "EC2")] := by
    simp [getAllServicesActions, scaleFailEnv, idleEnv, collectResults]
  have hscaleA : scaleServicesToZeroActions (scaleFailEnv cluster (pre ++ "bad" :: post))
      cluster (pre ++ "bad" :: post) =
      ((pre ++ "bad" :: post).map fun s => Action.call (RemoteCall.updateService cluster s 0))
        ++ [Action.emit (Ev.error "scale failed")] := by
    rw [scaleServicesToZeroActions, herr2]
  have hscaleR : scaleServicesToZeroResult (scaleFailEnv cluster (pre ++ "bad" :: post))
      cluster (pre ++ "bad" :: post) = [] := by
    rw [scaleServicesToZeroResult, herr2]
  have hta : getAllTasksActions (scaleFailEnv cluster (pre ++ "bad" :: post)) cluster =
      [Action.call (RemoteCall.listTasks cluster)] := by
    simp [getAllTasksActions, scaleFailEnv, idleEnv]
  have htr : getAllTasksResult (scaleFailEnv cluster (pre ++ "bad" :: post)) cluster = [] := by
    simp [getAllTasksResult, scaleFailEnv, idleEnv]
  have hia : getAllInstancesActions (scaleFailEnv cluster (pre ++ "bad" :: post)) cluster =
      [Action.call (RemoteCall.listContainerInstances cluster)] := by
    simp [getAllInstancesActions, scaleFailEnv, idleEnv]
  have hir : getAllInstancesResult (scaleFailEnv cluster (pre ++ "bad" :: post)) cluster
      = [] := by
    simp [getAllInstancesResult, scaleFailEnv, idleEnv]
  have hdel : deleteAllServicesActions (scaleFailEnv cluster (pre ++ "bad" :: post)) cluster
      [] = [] := by
    simp [deleteAllServicesActions, collectResults]
  have hdc : deleteClusterActions (scaleFailEnv cluster (pre ++ "bad" :: post)) cluster =
      [Action.call (RemoteCall.deleteCluster cluster)] := by
    simp [deleteClusterActions, scaleFailEnv, idleEnv]
  have hdcr : deleteClusterResult (scaleFailEnv cluster (pre ++ "bad" :: post)) cluster =
      some ⟨cluster, "ACTIVE"⟩ := by
    simp [deleteClusterResult, scaleFailEnv, idleEnv]
  simp [deleteHelper, servicesPhaseActions, tasksPhaseActions, instancesPhaseActions,
    servicesDeletePhaseActions, tailActions, stackFoundActions, scaledServices, verboseLog,
    hex, hsvc, hstack, hlen, hdca, hdsa, hgsa, hscaleA, hscaleR, hta, htr, hia, hir, hdel,
    hdc, hdcr, eventsOf_cons_emit, eventsOf_cons_call, eventsOf_append, eventsOf_map_call,
    eventsOf_nil]

/-- C5: for a cluster with an associated stack and N services, M tasks and
K instances, with every discovery and mutation succeeding, the emitted
sequence is exactly start, stackFound, servicesFound, servicesScaledDown,
tasksFound, tasksStopped, instancesFound, instancesDeregistered,
servicesDeleted, stackDeletionStarted, zero or more resourceDeleted,
stackDeletionDone, clusterDeleted, done — and each discovery/mutation
event pair whose discovery returns the empty list is omitted entirely (the
conditional segments below). -/
theorem c5_happy_path_sequence (cluster : String) (s : Stack)
    (svcArns taskArns instArns : List String) (ticks : List (List StackEvent)) :
    eventsOf (deleteHelper (happyEnv cluster s svcArns taskArns instArns ticks) ["EC2"]
        cluster ⟨false⟩) =
      [Ev.start cluster, Ev.stackFound s] ++
      (if 0 < svcArns.length then
        [Ev.servicesFound svcArns, Ev.servicesScaledDown (svcArns.map Service.mk)]
      else []) ++
      (if 0 < taskArns.length then
        [Ev.tasksFound taskArns, Ev.tasksStopped (taskArns.map Task.mk)]
      else []) ++
      (if 0 < instArns.length then
        [Ev.instancesFound instArns,
          Ev.instancesDeregistered (instArns.map ContainerInstance.mk)]
      else []) ++
      (if 0 < svcArns.length then [Ev.servicesDeleted (svcArns.map Service.mk)] else []) ++
      [Ev.stackDeletionStarted s.StackId] ++
      (pollNewEvents [] ticks).map Ev.resourceDeleted ++
      [Ev.stackDeletionDone s.StackId, Ev.clusterDeleted (some ⟨cluster, "INACTIVE"⟩),
        Ev.done cluster] := by
  have hex : doesClusterExistResult (happyEnv cluster s svcArns taskArns instArns ticks)
      cluster = true := by
    simp [doesClusterExistResult, describeClusterResult, happyEnv, idleEnv]
  have hstack : describeStackResult (happyEnv cluster s svcArns taskArns instArns ticks)
      cluster = some s := by
    simp [describeStackResult, happyEnv, idleEnv]
  have hdca : describeClusterActions (happyEnv cluster s svcArns taskArns instArns ticks)
      cluster = [Action.call (RemoteCall.describeClusters [cluster])] := by
    simp [describeClusterActions, happyEnv, idleEnv]
  have hdsa : describeStackActions (happyEnv cluster s svcArns taskArns instArns ticks)
      cluster = [Action.call (RemoteCall.describeStacks ("EC2ContainerService-" ++ cluster))]
      := by
    simp [describeStackActions, happyEnv, idleEnv]
  have hsvcR : getAllServicesResult (happyEnv cluster s svcArns taskArns instArns ticks)
      ["EC2"] cluster = svcArns := by
    simp [getAllServicesResult, happyEnv, idleEnv, collectResults]
  have hgsa : getAllServicesActions (happyEnv cluster s svcArns taskArns instArns ticks)
      ["EC2"] cluster = [Action.call (RemoteCall.listServices cluster "EC2")] := by
    simp [getAllServicesActions, happyEnv, idleEnv, collectResults]
  have hscr : collectResults (svcArns.map
      (happyEnv cluster s svcArns taskArns instArns ticks).updateServiceRes) =
      Except.ok (svcArns.map Service.mk) := collectResults_map_ok Service.mk svcArns
  have hscaleA : scaleServicesToZeroActions (happyEnv cluster s svcArns taskArns instArns
      ticks) cluster svcArns =
      svcArns.map fun a => Action.call (RemoteCall.updateService cluster a 0) := by
    rw [scaleServicesToZeroActions, hscr, List.append_nil]
  have hscaleR : scaleServicesToZeroResult (happyEnv cluster s svcArns taskArns instArns
      ticks) cluster svcArns = svcArns.map Service.mk := by
    rw [scaleServicesToZeroResult, hscr]
  have htaskR : getAllTasksResult (happyEnv cluster s svcArns taskArns instArns ticks)
      cluster = taskArns := by
    simp [getAllTasksResult, happyEnv, idleEnv]
  have hta : getAllTasksActions (happyEnv cluster s svcArns taskArns instArns ticks)
      cluster = [Action.call (RemoteCall.listTasks cluster)] := by
    simp [getAllTasksActions, happyEnv, idleEnv]
  have hstr : collectResults (taskArns.map
      (happyEnv cluster s svcArns taskArns instArns ticks).stopTaskRes) =
      Except.ok (taskArns.map Task.mk) := collectResults_map_ok Task.mk taskArns
  have hstopA : stopTasksActions (happyEnv cluster s svcArns taskArns instArns ticks)
      cluster taskArns =
      taskArns.map fun t =>
        Action.call (RemoteCall.stopTask cluster t "Cluster being deleted") := by
    rw [stopTasksActions, hstr, List.append_nil]
  have hstopR : stopTasksResult (happyEnv cluster s svcArns taskArns instArns ticks)
      cluster taskArns = taskArns.map Task.mk := by
    rw [stopTasksResult, hstr]
  have hinstR : getAllInstancesResult (happyEnv cluster s svcArns taskArns instArns ticks)
      cluster = instArns := by
    simp [getAllInstancesResult, happyEnv, idleEnv]
  have hina : getAllInstancesActions (happyEnv cluster s svcArns taskArns instArns ticks)
      cluster = [Action.call (RemoteCall.listContainerInstances cluster)] := by
    simp [getAllInstancesActions, happyEnv, idleEnv]
  have hder : collectResults (instArns.map
      (happyEnv cluster s svcArns taskArns instArns ticks).deregisterRes) =
      Except.ok (instArns.map ContainerInstance.mk) :=
    collectResults_map_ok ContainerInstance.mk instArns
  have hderA : deregisterContainerInstancesActions (happyEnv cluster s svcArns taskArns
      instArns ticks) cluster instArns =
      instArns.map fun i =>
        Action.call (RemoteCall.deregisterContainerInstance cluster i true) := by
    rw [deregisterContainerInstancesActions, hder, List.append_nil]
  have hderR : deregisterContainerInstancesResult (happyEnv cluster s svcArns taskArns
      instArns ticks) cluster instArns = instArns.map ContainerInstance.mk := by
    rw [deregisterContainerInstancesResult, hder]
  have hnames : (svcArns.map Service.mk).map (·.serviceName) = svcArns := by
    rw [List.map_map]
    exact List.map_id svcArns
  have hdelc : collectResults (svcArns.map
      (happyEnv cluster s svcArns taskArns instArns ticks).deleteServiceRes) =
      Except.ok (svcArns.map Service.mk) := collectResults_map_ok Service.mk svcArns
  have hdelA : deleteAllServicesActions (happyEnv cluster s svcArns taskArns instArns ticks)
      cluster svcArns =
      svcArns.map fun a => Action.call (RemoteCall.deleteService cluster a) := by
    rw [deleteAllServicesActions, hdelc, List.append_nil]
  have hdsA : deleteStackActions (happyEnv cluster s svcArns taskArns instArns ticks)
      cluster = [Action.call (RemoteCall.deleteStack ("EC2ContainerService-" ++ cluster))]
      := by
    simp [deleteStackActions, happyEnv, idleEnv]
  have hpoll : pollOutcome (happyEnv cluster s svcArns taskArns instArns ticks) =
      Except.ok [s] := by
    simp [pollOutcome, happyEnv, idleEnv, TEN_MINUTES]
  have hpollA : pollActions (happyEnv cluster s svcArns taskArns instArns ticks) cluster s =
      Action.call (RemoteCall.waitForStackDeleteComplete s.StackId) ::
        pollRun cluster [] (ticks.map Except.ok) := by
    simp [pollActions, happyEnv, idleEnv]
  have hdc : deleteClusterActions (happyEnv cluster s svcArns taskArns instArns ticks)
      cluster = [Action.call (RemoteCall.deleteCluster cluster)] := by
    simp [deleteClusterActions, happyEnv, idleEnv]
  have hdcr : deleteClusterResult (happyEnv cluster s svcArns taskArns instArns ticks)
      cluster = some ⟨cluster, "INACTIVE"⟩ := by
    simp [deleteClusterResult, happyEnv, idleEnv]
  by_cases h1 : 0 < svcArns.length <;> by_cases h2 : 0 < taskArns.length <;>
    by_cases h3 : 0 < instArns.length <;>
    simp [deleteHelper, servicesPhaseActions, tasksPhaseActions, instancesPhaseActions,
      servicesDeletePhaseActions, tailActions, stackFoundActions, scaledServices,
      verboseLog, hex, hstack, hdca, hdsa, hsvcR, hgsa, hscaleA, hscaleR, htaskR, hta,
      hstopA, hstopR, hinstR, hina, hderA, hderR, hnames, hdelA, hdsA, hpoll, hpollA, hdc,
      hdcr, h1, h2, h3, eventsOf_cons_emit, eventsOf_cons_call, eventsOf_append,
      eventsOf_map_call, eventsOf_nil, eventsOf_pollRun_okTicks]

theorem notmem_cons_append {x a : Action} {l1 l2 : List Action} (h0 : x ≠ a)
    (h1 : x ∉ l1) (h2 : x ∉ l2) : x ∉ a :: (l1 ++ l2) := by
  intro hm
  rcases List.mem_cons.mp hm with rfl | hm2
  · exact h0 rfl
  · rcases List.mem_append.mp hm2 with h | h
    · exact h1 h
    · exact h2 h

theorem eventsOf_ends_with_emit (l : List Action) (ev : Ev) :
    ∃ p2, eventsOf (l ++ [Action.emit ev]) = p2 ++ [ev] :=
  ⟨eventsOf l, by rw [eventsOf_append]; rfl⟩

theorem notmem_describeClusterActions (env : AwsEnv) (cl : String) :
    (∀ c, Action.call (RemoteCall.deleteCluster c) ∉ describeClusterActions env cl) ∧
    (∀ p, Action.emit (Ev.clusterDeleted p) ∉ describeClusterActions env cl) := by
  constructor <;> intro z <;> cases h : env.describeClustersRes <;>
    simp [describeClusterActions, h]

theorem notmem_describeStackActions (env : AwsEnv) (cl : String) :
    (∀ c, Action.call (RemoteCall.deleteCluster c) ∉ describeStackActions env cl) ∧
    (∀ p, Action.emit (Ev.clusterDeleted p) ∉ describeStackActions env cl) := by
  constructor <;> intro z <;> cases h : env.describeStacksRes <;>
    simp [describeStackActions, h]

theorem notmem_getAllServicesActions (env : AwsEnv) (lts : List String) (cl : String) :
    (∀ c, Action.call (RemoteCall.deleteCluster c) ∉ getAllServicesActions env lts cl) ∧
    (∀ p, Action.emit (Ev.clusterDeleted p) ∉ getAllServicesActions env lts cl) := by
  constructor <;> intro z <;> cases h : collectResults (lts.map env.listServicesRes) <;>
    simp [getAllServicesActions, h]

theorem notmem_scaleServicesToZeroActions (env : AwsEnv) (cl : String) (arns : List String) :
    (∀ c, Action.call (RemoteCall.deleteCluster c) ∉ scaleServicesToZeroActions env cl arns) ∧
    (∀ p, Action.emit (Ev.clusterDeleted p) ∉ scaleServicesToZeroActions env cl arns) := by
  constructor <;> intro z <;> cases h : collectResults (arns.map env.updateServiceRes) <;>
    simp [scaleServicesToZeroActions, h]

theorem notmem_getAllTasksActions (env : AwsEnv) (cl : String) :
    (∀ c, Action.call (RemoteCall.deleteCluster c) ∉ getAllTasksActions env cl) ∧
    (∀ p, Action.emit (Ev.clusterDeleted p) ∉ getAllTasksActions env cl) := by
  constructor <;> intro z <;> cases h : env.listTasksRes <;> simp [getAllTasksActions, h]

theorem notmem_stopTasksActions (env : AwsEnv) (cl : String) (arns : List String) :
    (∀ c, Action.call (RemoteCall.deleteCluster c) ∉ stopTasksActions env cl arns) ∧
    (∀ p, Action.emit (Ev.clusterDeleted p) ∉ stopTasksActions env cl arns) := by
  constructor <;> intro z <;> cases h : collectResults (arns.map env.stopTaskRes) <;>
    simp [stopTasksActions, h]

theorem notmem_getAllInstancesActions (env : AwsEnv) (cl : String) :
    (∀ c, Action.call (RemoteCall.deleteCluster c) ∉ getAllInstancesActions env cl) ∧
    (∀ p, Action.emit (Ev.clusterDeleted p) ∉ getAllInstancesActions env cl) := by
  constructor <;> intro z <;> cases h : env.listContainerInstancesRes <;>
    simp [getAllInstancesActions, h]

theorem notmem_deregisterActions (env : AwsEnv) (cl : String) (instances : List String) :
    (∀ c, Action.call (RemoteCall.deleteCluster c) ∉
      deregisterContainerInstancesActions env cl instances) ∧
    (∀ p, Action.emit (Ev.clusterDeleted p) ∉
      deregisterContainerInstancesActions env cl instances) := by
  constructor <;> intro z <;> cases h : collectResults (instances.map env.deregisterRes) <;>
    simp [deregisterContainerInstancesActions, h]

theorem notmem_deleteAllServicesActions (env : AwsEnv) (cl : String) (svcs : List String) :
    (∀ c, Action.call (RemoteCall.deleteCluster c) ∉ deleteAllServicesActions env cl svcs) ∧
    (∀ p, Action.emit (Ev.clusterDeleted p) ∉ deleteAllServicesActions env cl svcs) := by
  constructor <;> intro z <;> cases h : collectResults (svcs.map env.deleteServiceRes) <;>
    simp [deleteAllServicesActions, h]

theorem notmem_deleteStackActions (env : AwsEnv) (cl : String) :
    (∀ c, Action.call (RemoteCall.deleteCluster c) ∉ deleteStackActions env cl) ∧
    (∀ p, Action.emit (Ev.clusterDeleted p) ∉ deleteStackActions env cl) := by
  constructor <;> intro z <;> cases h : env.deleteStackRes <;> simp [deleteStackActions, h]

theorem notmem_servicesPhaseActions (env : AwsEnv) (lts : List String) (cl : String) :
    (∀ c, Action.call (RemoteCall.deleteCluster c) ∉ servicesPhaseActions env lts cl) ∧
    (∀ p, Action.emit (Ev.clusterDeleted p) ∉ servicesPhaseActions env lts cl) := by
  have g1 := notmem_getAllServicesActions env lts cl
  have g2 := notmem_scaleServicesToZeroActions env cl (getAllServicesResult env lts cl)
  constructor <;> intro z <;> unfold servicesPhaseActions <;> split <;>
    simp [List.mem_append, g1.1, g1.2, g2.1, g2.2]

theorem notmem_tasksPhaseActions (env : AwsEnv) (cl : String) :
    (∀ c, Action.call (RemoteCall.deleteCluster c) ∉ tasksPhaseActions env cl) ∧
    (∀ p, Action.emit (Ev.clusterDeleted p) ∉ tasksPhaseActions env cl) := by
  have g1 := notmem_getAllTasksActions env cl
  have g2 := notmem_stopTasksActions env cl (getAllTasksResult env cl)
  constructor <;> intro z <;> unfold tasksPhaseActions <;> split <;>
    simp [List.mem_append, g1.1, g1.2, g2.1, g2.2]

theorem notmem_instancesPhaseActions (env : AwsEnv) (cl : String) :
    (∀ c, Action.call (RemoteCall.deleteCluster c) ∉ instancesPhaseActions env cl) ∧
    (∀ p, Action.emit (Ev.clusterDeleted p) ∉ instancesPhaseActions env cl) := by
  have g1 := notmem_getAllInstancesActions env cl
  have g2 := notmem_deregisterActions env cl (getAllInstancesResult env cl)
  constructor <;> intro z <;> unfold instancesPhaseActions <;> split <;>
    simp [List.mem_append, g1.1, g1.2, g2.1, g2.2]

theorem notmem_servicesDeletePhaseActions (env : AwsEnv) (lts : List String) (cl : String) :
    (∀ c, Action.call (RemoteCall.deleteCluster c) ∉ servicesDeletePhaseActions env lts cl) ∧
    (∀ p, Action.emit (Ev.clusterDeleted p) ∉ servicesDeletePhaseActions env lts cl) := by
  have g1 := notmem_deleteAllServicesActions env cl
    ((scaledServices env lts cl).map (·.serviceName))
  constructor <;> intro z <;> unfold servicesDeletePhaseActions <;> split <;>
    simp [List.mem_append, g1.1, g1.2]

theorem notmem_pollRun (cl : String) (rs : List (Except String (List StackEvent))) :
    ∀ ad, (∀ c, Action.call (RemoteCall.deleteCluster c) ∉ pollRun cl ad rs) ∧
      (∀ p, Action.emit (Ev.clusterDeleted p) ∉ pollRun cl ad rs) := by
  induction rs with
  | nil =>
    intro ad
    constructor <;> intro z <;> simp [pollRun]
  | cons r rest ih =>
    intro ad
    cases r with
    | error e =>
      constructor <;> intro z <;> simp [pollRun, (ih ad).1, (ih ad).2]
    | ok evs =>
      have hrec := ih (ad ++
        ((evs.filter fun e => e.ResourceStatus == "DELETE_COMPLETE").filter
          fun e => !(ad.contains e.LogicalResourceId)).map (·.LogicalResourceId))
      constructor
      · intro c
        simp only [pollRun]
        exact notmem_cons_append (by simp) (by simp) (hrec.1 c)
      · intro p
        simp only [pollRun]
        exact notmem_cons_append (by simp) (by simp) (hrec.2 p)

theorem notmem_pollActions (env : AwsEnv) (cl : String) (s : Stack) :
    (∀ c, Action.call (RemoteCall.deleteCluster c) ∉ pollActions env cl s) ∧
    (∀ p, Action.emit (Ev.clusterDeleted p) ∉ pollActions env cl s) := by
  have g := notmem_pollRun cl env.stackEventsResponses []
  constructor <;> intro z <;> simp [pollActions, g.1, g.2]

theorem notmem_pollLeakActions (env : AwsEnv) (cl : String) :
    (∀ c, Action.call (RemoteCall.deleteCluster c) ∉ pollLeakActions env cl) ∧
    (∀ p, Action.emit (Ev.clusterDeleted p) ∉ pollLeakActions env cl) := by
  have g := notmem_pollRun cl env.lateStackEventsResponses
    (pollFinalDeleted [] env.stackEventsResponses)
  constructor
  · intro c
    unfold pollLeakActions
    split
    · split
      · simp
      · simp [g.1]
    · simp
  · intro p
    unfold pollLeakActions
    split
    · split
      · simp
      · simp [g.2]
    · simp

theorem eventsOf_pollRun_shape (cl : String) :
    ∀ (rs : List (Except String (List StackEvent))) (ad : List String),
      ∀ ev ∈ eventsOf (pollRun cl ad rs),
        (∃ se, ev = Ev.resourceDeleted se) ∨ (∃ m, ev = Ev.error m) := by
  intro rs
  induction rs with
  | nil =>
    intro ad ev h
    simp [pollRun, eventsOf] at h
  | cons r rest ih =>
    intro ad ev h
    cases r with
    | error m =>
      simp only [pollRun] at h
      rw [eventsOf_cons_call, eventsOf_cons_emit] at h
      rcases List.mem_cons.mp h with rfl | h2
      · exact Or.inr ⟨m, rfl⟩
      · exact ih ad ev h2
    | ok evs =>
      simp only [pollRun] at h
      rw [eventsOf_cons_call, eventsOf_append, eventsOf_map_emit] at h
      rcases List.mem_append.mp h with h2 | h2
      · rcases List.mem_map.mp h2 with ⟨se, _, rfl⟩
        exact Or.inl ⟨se, rfl⟩
      · exact ih _ ev h2

theorem eventsOf_pollLeakActions_shape (env : AwsEnv) (cl : String) :
    ∀ ev ∈ eventsOf (pollLeakActions env cl),
      (∃ se, ev = Ev.resourceDeleted se) ∨ (∃ m, ev = Ev.error m) := by
  intro ev h
  unfold pollLeakActions at h
  split at h
  · split at h
    · simp [eventsOf] at h
    · exact eventsOf_pollRun_shape cl env.lateStackEventsResponses
        (pollFinalDeleted [] env.stackEventsResponses) ev h
  · simp [eventsOf] at h

/-- C4 counterexample: a run in which the stack-delete wait fails — the
waitFor promise rejects before the 600-second timeout.  The pipeline
emits doneWithError, but the ten-second interval is cleared only by the
waitFor success continuation and by the timeout handler, never on a
waitFor rejection, so it keeps firing: its next tick observes resource R1
as delete-complete and emits resourceDeleted after the doneWithError.  The
run's last event is that resourceDeleted, not doneWithError, so the event
sequence does not end with doneWithError as the claim states. -/
theorem c4_counterexample :
    eventsOf (deleteHelper waitRejectEnv ["EC2"] "demo" ⟨false⟩) =
      [Ev.start "demo", Ev.stackFound ⟨"sid"⟩, Ev.stackDeletionStarted "sid",
        Ev.doneWithError "wait failed",
        Ev.resourceDeleted ⟨"R1", "DELETE_COMPLETE"⟩] ∧
    (eventsOf (deleteHelper waitRejectEnv ["EC2"] "demo" ⟨false⟩)).getLast? =
      some (Ev.resourceDeleted ⟨"R1", "DELETE_COMPLETE"⟩) :=
  ⟨rfl, rfl⟩

/-- C4 amended: for every run in which the stack-delete wait fails or its
settlement does not arrive before the fixed 600-second timeout
(TEN_MINUTES = 600000 ms), the cluster-deletion remote call is never
issued and no clusterDeleted event is ever emitted; a doneWithError event
is emitted, and every event after it comes only from the leaked polling
interval — non-terminal resourceDeleted or error events.  When the
failure is the timeout itself, whose handler clears the interval before
rejecting, nothing follows doneWithError: the sequence ends with it. -/
theorem c4_amended_wait_failure (env : AwsEnv) (launchTypes : List String) (cluster : String)
    (options : ClusterCleanup.Options) (s : Stack)
    (hEx : doesClusterExistResult env cluster = true)
    (hStack : describeStackResult env cluster = some s)
    (hWait : 600 * 1000 ≤ env.waitForResolveMs ∨
      ∃ m, env.waitForResult = Except.error m) :
    (∀ c, Action.call (RemoteCall.deleteCluster c) ∉
      deleteHelper env launchTypes cluster options) ∧
    (∀ p, Action.emit (Ev.clusterDeleted p) ∉
      deleteHelper env launchTypes cluster options) ∧
    (∃ msg p2 suffix, eventsOf (deleteHelper env launchTypes cluster options) =
      p2 ++ Ev.doneWithError msg :: suffix ∧
      (∀ ev ∈ suffix, (∃ se, ev = Ev.resourceDeleted se) ∨ (∃ m, ev = Ev.error m)) ∧
      (600 * 1000 ≤ env.waitForResolveMs → suffix = [])) ∧
    TEN_MINUTES = 600 * 1000 := by
  obtain ⟨e, hPoll⟩ : ∃ e, pollOutcome env = Except.error e := by
    rcases hWait with h | ⟨m, hm⟩
    · have hge : ¬ env.waitForResolveMs < TEN_MINUTES := by
        unfold TEN_MINUTES
        omega
      exact ⟨"CloudFormation stack deletion timed out!", by
        simp only [pollOutcome]
        rw [if_neg hge]⟩
    · by_cases hlt : env.waitForResolveMs < TEN_MINUTES
      · exact ⟨m, by
          simp only [pollOutcome]
          rw [if_pos hlt, hm]⟩
      · exact ⟨"CloudFormation stack deletion timed out!", by
          simp only [pollOutcome]
          rw [if_neg hlt]⟩
  have hT : deleteHelper env launchTypes cluster options =
      Action.emit (Ev.start cluster) ::
        (describeClusterActions env cluster ++
          (describeStackActions env cluster ++ [Action.emit (Ev.stackFound s)] ++
            servicesPhaseActions env launchTypes cluster ++ tasksPhaseActions env cluster ++
            instancesPhaseActions env cluster ++
            servicesDeletePhaseActions env launchTypes cluster ++
            (deleteStackActions env cluster ++
              [Action.emit (Ev.stackDeletionStarted s.StackId)] ++
              pollActions env cluster s ++
              ([Action.emit (Ev.doneWithError e)] ++ pollLeakActions env cluster)))) := by
    rw [deleteHelper, if_pos hEx, hStack]
    simp only [stackFoundActions, tailActions, hPoll]
    rfl
  have n1 := notmem_describeClusterActions env cluster
  have n2 := notmem_describeStackActions env cluster
  have n3 := notmem_servicesPhaseActions env launchTypes cluster
  have n4 := notmem_tasksPhaseActions env cluster
  have n5 := notmem_instancesPhaseActions env cluster
  have n6 := notmem_servicesDeletePhaseActions env launchTypes cluster
  have n7 := notmem_deleteStackActions env cluster
  have n8 := notmem_pollActions env cluster s
  have n9 := notmem_pollLeakActions env cluster
  refine ⟨?_, ?_, ?_, rfl⟩
  · intro c
    rw [hT]
    simp [List.mem_append, n1.1 c, n2.1 c, n3.1 c, n4.1 c, n5.1 c, n6.1 c, n7.1 c, n8.1 c,
      n9.1 c]
  · intro p
    rw [hT]
    simp [List.mem_append, n1.2 p, n2.2 p, n3.2 p, n4.2 p, n5.2 p, n6.2 p, n7.2 p, n8.2 p,
      n9.2 p]
  · have hT2 : deleteHelper env launchTypes cluster options =
        (Action.emit (Ev.start cluster) ::
          (describeClusterActions env cluster ++
            (describeStackActions env cluster ++ [Action.emit (Ev.stackFound s)] ++
              servicesPhaseActions env launchTypes cluster ++ tasksPhaseActions env cluster ++
              instancesPhaseActions env cluster ++
              servicesDeletePhaseActions env launchTypes cluster ++
              (deleteStackActions env cluster ++
                [Action.emit (Ev.stackDeletionStarted s.StackId)] ++
                pollActions env cluster s)))) ++
          (Action.emit (Ev.doneWithError e) :: pollLeakActions env cluster) := by
      rw [hT]
      simp [List.append_assoc]
    have heq : eventsOf (deleteHelper env launchTypes cluster options) =
        eventsOf (Action.emit (Ev.start cluster) ::
          (describeClusterActions env cluster ++
            (describeStackActions env cluster ++ [Action.emit (Ev.stackFound s)] ++
              servicesPhaseActions env launchTypes cluster ++ tasksPhaseActions env cluster ++
              instancesPhaseActions env cluster ++
              servicesDeletePhaseActions env launchTypes cluster ++
              (deleteStackActions env cluster ++
                [Action.emit (Ev.stackDeletionStarted s.StackId)] ++
                pollActions env cluster s)))) ++
          Ev.doneWithError e :: eventsOf (pollLeakActions env cluster) := by
      rw [hT2, eventsOf_append, eventsOf_cons_emit, eventsOf_cons_emit]
    refine ⟨e, _, _, heq, ?_, ?_⟩
    · exact fun ev h => eventsOf_pollLeakActions_shape env cluster ev h
    · intro hge
      have hnl : ¬ env.waitForResolveMs < TEN_MINUTES := by
        unfold TEN_MINUTES
        omega
      have hleaknil : pollLeakActions env cluster = [] := by
        unfold pollLeakActions
        rw [if_neg hnl]
      rw [hleaknil]
      rfl

/-- C4 amended witness: a run for cluster "demo" with a stack whose
waitFor settlement arrives exactly at the ten-minute mark, so the timeout
wins the race, the interval is cleared, and the suffix after doneWithError
is empty. -/
theorem c4_amended_wait_failure_witness :
    (∀ c, Action.call (RemoteCall.deleteCluster c) ∉
      deleteHelper timeoutEnv ["EC2"] "demo" ⟨false⟩) ∧
    (∀ p, Action.emit (Ev.clusterDeleted p) ∉
      deleteHelper timeoutEnv ["EC2"] "demo" ⟨false⟩) ∧
    (∃ msg p2 suffix, eventsOf (deleteHelper timeoutEnv ["EC2"] "demo" ⟨false⟩) =
      p2 ++ Ev.doneWithError msg :: suffix ∧
      (∀ ev ∈ suffix, (∃ se, ev = Ev.resourceDeleted se) ∨ (∃ m, ev = Ev.error m)) ∧
      (600 * 1000 ≤ timeoutEnv.waitForResolveMs → suffix = [])) ∧
    TEN_MINUTES = 600 * 1000 :=
  c4_amended_wait_failure timeoutEnv ["EC2"] "demo" ⟨false⟩ ⟨"sid"⟩ rfl rfl
    (Or.inl (by decide))

theorem rid_append (l1 l2 : List Action) :
    resourceDeletedIds (l1 ++ l2) = resourceDeletedIds l1 ++ resourceDeletedIds l2 := by
  simp [resourceDeletedIds]

theorem rid_cons_call (c : RemoteCall) (l : List Action) :
    resourceDeletedIds (Action.call c :: l) = resourceDeletedIds l := by
  simp [resourceDeletedIds]

theorem rid_cons_error (m : String) (l : List Action) :
    resourceDeletedIds (Action.emit (Ev.error m) :: l) = resourceDeletedIds l := by
  simp [resourceDeletedIds]

theorem rid_map_emit (l : List StackEvent) :
    resourceDeletedIds (l.map fun e => Action.emit (Ev.resourceDeleted e)) =
      l.map (·.LogicalResourceId) := by
  induction l with
  | nil => rfl
  | cons a rest ih =>
    rw [List.map_cons]
    simp [resourceDeletedIds] at ih ⊢
    exact ih

theorem rid_pollRun_cons_ok (cl : String) (ad : List String) (evs : List StackEvent)
    (rest : List (Except String (List StackEvent))) :
    resourceDeletedIds (pollRun cl ad (Except.ok evs :: rest)) =
      ((evs.filter fun e => e.ResourceStatus == "DELETE_COMPLETE").filter
        fun e => !(ad.contains e.LogicalResourceId)).map (·.LogicalResourceId) ++
      resourceDeletedIds (pollRun cl
        (ad ++ ((evs.filter fun e => e.ResourceStatus == "DELETE_COMPLETE").filter
          fun e => !(ad.contains e.LogicalResourceId)).map (·.LogicalResourceId)) rest) := by
  simp only [pollRun]
  rw [rid_cons_call, rid_append, rid_map_emit]

theorem rid_pollRun_cons_error (cl : String) (ad : List String) (m : String)
    (rest : List (Except String (List StackEvent))) :
    resourceDeletedIds (pollRun cl ad (Except.error m :: rest)) =
      resourceDeletedIds (pollRun cl ad rest) := by
  simp only [pollRun]
  rw [rid_cons_call, rid_cons_error]

theorem pollRun_ids_nodup (cl : String) :
    ∀ rs : List (Except String (List StackEvent)),
      (∀ evs, Except.ok evs ∈ rs →
        ((evs.filter fun e => e.ResourceStatus == "DELETE_COMPLETE").map
          (·.LogicalResourceId)).Nodup) →
      ∀ ad, (resourceDeletedIds (pollRun cl ad rs)).Nodup ∧
        ∀ x ∈ resourceDeletedIds (pollRun cl ad rs), x ∉ ad := by
  intro rs
  induction rs with
  | nil =>
    intro _ ad
    simp [pollRun, resourceDeletedIds]
  | cons r rest ih =>
    intro hres ad
    have hres' : ∀ evs, Except.ok evs ∈ rest →
        ((evs.filter fun e => e.ResourceStatus == "DELETE_COMPLETE").map
          (·.LogicalResourceId)).Nodup :=
      fun evs h => hres evs (List.mem_cons_of_mem _ h)
    cases r with
    | error m =>
      obtain ⟨ihN, ihA⟩ := ih hres' ad
      rw [rid_pollRun_cons_error]
      exact ⟨ihN, ihA⟩
    | ok evs =>
      obtain ⟨ihN, ihA⟩ := ih hres'
        (ad ++ ((evs.filter fun e => e.ResourceStatus == "DELETE_COMPLETE").filter
          fun e => !(ad.contains e.LogicalResourceId)).map (·.LogicalResourceId))
      have hnodupNews : (((evs.filter fun e => e.ResourceStatus == "DELETE_COMPLETE").filter
          fun e => !(ad.contains e.LogicalResourceId)).map (·.LogicalResourceId)).Nodup :=
        List.Nodup.sublist
          (List.Sublist.map _ (List.filter_sublist _))
          (hres evs (List.mem_cons_self _ _))
      have hnotin : ∀ x ∈ ((evs.filter fun e => e.ResourceStatus == "DELETE_COMPLETE").filter
          fun e => !(ad.contains e.LogicalResourceId)).map (·.LogicalResourceId), x ∉ ad := by
        intro x hx
        rcases List.mem_map.mp hx with ⟨ev, hev, rfl⟩
        have hflt := (List.mem_filter.mp hev).2
        simp at hflt
        exact hflt
      rw [rid_pollRun_cons_ok]
      constructor
      · refine List.Nodup.append hnodupNews ihN ?_
        intro x hx1 hx2
        exact ihA x hx2 (List.mem_append_right _ hx1)
      · intro x hx
        rcases List.mem_append.mp hx with h | h
        · exact hnotin x h
        · intro hmem
          exact ihA x h (List.mem_append_left _ hmem)

/-- C8 amended: within one polling run, resourceDeleted is emitted at most
once per logical resource identifier provided no single event-history read
lists the same identifier twice in the DELETE_COMPLETE state; in
particular an identifier reported by an earlier periodic check is never
re-emitted by a later check, even when both checks observe the resource as
deleted.  (Without the proviso, one read holding duplicate delete-complete
records for an identifier emits it once per record — the counterexample.) -/
theorem c8_amended_dedup_across_ticks (cl : String)
    (rs : List (Except String (List StackEvent)))
    (hres : ∀ evs, Except.ok evs ∈ rs →
      ((evs.filter fun e => e.ResourceStatus == "DELETE_COMPLETE").map
        (·.LogicalResourceId)).Nodup) :
    (resourceDeletedIds (pollRun cl [] rs)).Nodup :=
  (pollRun_ids_nodup cl rs hres []).1

/-- C8 amended witness: two successive checks both observe resource A as
delete-complete; it is reported exactly once. -/
theorem c8_amended_dedup_across_ticks_witness :
    (resourceDeletedIds (pollRun "demo" []
      [Except.ok [⟨"A", "DELETE_COMPLETE"⟩],
        Except.ok [⟨"A", "DELETE_COMPLETE"⟩]])).Nodup :=
  c8_amended_dedup_across_ticks "demo"
    [Except.ok [⟨"A", "DELETE_COMPLETE"⟩], Except.ok [⟨"A", "DELETE_COMPLETE"⟩]]
    (by
      intro evs h
      simp at h
      subst h
      decide)

/-- C1 counterexample: services a b c are discovered, scaling b rejects
while a and c succeed; the pipeline emits one error event and continues to
done, but the servicesScaledDown payload is the empty list — the two
successful results are discarded by the catch block, so the aggregated
event does not carry exactly the results of the successful calls. -/
theorem c1_counterexample :
    eventsOf (deleteHelper oneScaleFailEnv ["EC2"] "demo" ⟨false⟩) =
      [Ev.start "demo", Ev.servicesFound ["a", "b", "c"], Ev.error "scale failed",
        Ev.servicesScaledDown [], Ev.servicesDeleted [],
        Ev.clusterDeleted (some ⟨"demo", "ACTIVE"⟩), Ev.done "demo"] ∧
    oneScaleFailEnv.updateServiceRes "a" = Except.ok ⟨"a"⟩ ∧
    oneScaleFailEnv.updateServiceRes "c" = Except.ok ⟨"c"⟩ ∧
    Ev.servicesScaledDown [⟨"a"⟩, ⟨"c"⟩] ∉
      eventsOf (deleteHelper oneScaleFailEnv ["EC2"] "demo" ⟨false⟩) :=
  ⟨rfl, rfl, rfl, by decide⟩

end ClusterManager
